import Mathlib

/-!
Shallow embedding of `src/rtl-detector.js`: a script that keeps the document
root's `dir` attribute (and an `rtl-mode` marker class) synchronized with the
classification of the root's `lang` attribute, via a reconcile routine
(`detectAndApplyLayout`), an attribute-mutation observer, a periodic sweep,
a widget watcher, and a manual language switcher.

Document state is the triple of root attributes/classes the script reads and
writes; DOM attribute values are `Option String` (`getAttribute` returns null
when absent).  The optional global translation hook `window.translatePage` is
an `Option (Option String → Bool)`: the `Bool` result models whether the hook
throws when invoked (true = throws).  Calls into the appliers and the hook are
recorded as events so that claims about *which* operations run are statable.
-/

/-- State of the document root element: the `lang` attribute, the `dir`
attribute, and the class list (`classList`). -/
structure DocState where
  lang : Option String
  dir : Option String
  classes : List String
  deriving DecidableEq

/-- The fixed list of RTL primary language subtags (`RTL_LANGUAGES`,
lines 6-21 of the source). -/
def RTL_LANGUAGES : List String :=
  ["ar", "arc", "dv", "fa", "ha", "he", "khw", "ks", "ku", "ps", "sd",
   "ur", "uz", "yi"]

/-- Character list of a string up to (not including) its first `-`: the first
element of JS `split('-')` is exactly this prefix. -/
def beforeDash : List Char → List Char
  | [] => []
  | c :: rest => if c = '-' then [] else c :: beforeDash rest

/-- Embedding of `lang.toLowerCase().split('-')[0]` (line 32), expressed over the string's
character list so it is computable by the kernel: lower-case every character,
then keep the prefix before the first `-`. -/
def baseLangOf (l : String) : String :=
  ⟨beforeDash (l.data.map Char.toLower)⟩

/-- Embedding of `isRTLLanguage` (lines 28-36): `!lang` is true in JS for a null/undefined
or empty string, giving false; otherwise lower-case, take the substring before
the first `-` (`split('-')[0]`), and test membership in `RTL_LANGUAGES`. -/
def isRTLLanguage (lang : Option String) : Bool :=
  match lang with
  | none => false
  | some l =>
    if l = "" then false
    else
      let baseLang := baseLangOf l
      RTL_LANGUAGES.contains baseLang

/-- Embedding of `classList.add`: appends the token unless already present. -/
def classAdd (cs : List String) (c : String) : List String :=
  if c ∈ cs then cs else cs ++ [c]

/-- Embedding of `classList.remove`: removes the token. -/
def classRemove (cs : List String) (c : String) : List String :=
  cs.filter (fun x => x ≠ c)

/-- Embedding of `applyRTL` (lines 42-53): set `dir` to `"rtl"` and add the `rtl-mode`
marker class. -/
def applyRTL (s : DocState) : DocState :=
  { s with dir := some "rtl", classes := classAdd s.classes "rtl-mode" }

/-- Embedding of `applyLTR` (lines 59-70): set `dir` to `"ltr"` and remove the `rtl-mode`
marker class. -/
def applyLTR (s : DocState) : DocState :=
  { s with dir := some "ltr", classes := classRemove s.classes "rtl-mode" }

/-- Observable calls made by the script: an `applyRTL` call, an `applyLTR`
call, or an invocation of the translation hook with a language code. -/
inductive Ev where
  | ertl : Ev
  | eltr : Ev
  | ehook : Option String → Ev
  deriving DecidableEq

/-- Result of running `detectAndApplyLayout`: the final document state, the
list of applier/hook calls made, and whether an exception escaped (the hook
call at lines 88-90 is not wrapped in try/catch, so a hook throw propagates
after the state mutations have already happened). -/
structure ReconcileResult where
  state : DocState
  events : List Ev
  threw : Bool
  deriving DecidableEq

/-- Embedding of `detectAndApplyLayout` (lines 76-91): read the current `lang` attribute,
classify, call `applyRTL` on an RTL verdict and `applyLTR` otherwise, then, if
`window.translatePage` is a function, call it with the current language. -/
def detectAndApplyLayout (hook : Option (Option String → Bool))
    (s : DocState) : ReconcileResult :=
  let currentLang := s.lang
  let applied :=
    if isRTLLanguage currentLang then (applyRTL s, Ev.ertl)
    else (applyLTR s, Ev.eltr)
  match hook with
  | none => ⟨applied.1, [applied.2], false⟩
  | some h => ⟨applied.1, [applied.2, Ev.ehook currentLang], h currentLang⟩

/-- One tick of the periodic sweep (lines 164-176): re-read `lang` and `dir`,
recompute the verdict, call `applyRTL` when the verdict is RTL and `dir` is
not `"rtl"`, call `applyLTR` when the verdict is LTR and `dir` is `"rtl"`,
otherwise do nothing.  Returns the new state and the applier calls made. -/
def sweepTick (s : DocState) : DocState × List Ev :=
  let lang := s.lang
  let dir := s.dir
  let shouldBeRTL := isRTLLanguage lang
  if shouldBeRTL && !(dir == some "rtl") then (applyRTL s, [Ev.ertl])
  else if !shouldBeRTL && (dir == some "rtl") then (applyLTR s, [Ev.eltr])
  else (s, [])

/-- A `MutationRecord` as delivered to the attribute observer: its `type`
(for attribute changes, the string `"attributes"`) and its `attributeName`
(null for non-attribute mutations). -/
structure MutationRecord where
  type : String
  attributeName : Option String
  deriving DecidableEq

/-- The filter condition of the observer callback (line 105):
`mutation.type === 'attributes' && mutation.attributeName === 'lang'`. -/
def isLangMutation (m : MutationRecord) : Bool :=
  m.type == "attributes" && m.attributeName == some "lang"

/-- Result of one delivery of a mutation batch to the attribute observer
callback: final state, number of `detectAndApplyLayout` calls made, and
whether an exception escaped the `forEach` loop. -/
structure ObserverRun where
  state : DocState
  reconcileCalls : Nat
  threw : Bool
  deriving DecidableEq

/-- The attribute observer callback (lines 101-112): for each mutation in the
batch, in order, if it is an attribute mutation of `lang`, call
`detectAndApplyLayout`; a throw aborts the remaining iterations. -/
def attrObserverCallback (hook : Option (Option String → Bool)) :
    List MutationRecord → DocState → ObserverRun
  | [], s => ⟨s, 0, false⟩
  | m :: rest, s =>
    if isLangMutation m then
      let r := detectAndApplyLayout hook s
      if r.threw then ⟨r.state, 1, true⟩
      else
        let k := attrObserverCallback hook rest r.state
        ⟨k.state, k.reconcileCalls + 1, k.threw⟩
    else attrObserverCallback hook rest s

/-- A hook that never throws when called (including the absent hook).  Used
to state observer-path properties away from the abort-on-throw corner. -/
def hookOk : Option (Option String → Bool) → Prop
  | none => True
  | some h => ∀ l, h l = false

/-- What the widget watcher can schedule. -/
inductive SchedAction where
  | reconcile : SchedAction
  deriving DecidableEq

/-- A task queued via `setTimeout`: its delay in milliseconds and the
scheduled action. -/
structure ScheduledTask where
  delay : Nat
  action : SchedAction
  deriving DecidableEq

/-- The body observer callback of `observeGoogleTranslate` (lines 129-137):
on each batch of structural mutations, if the widget marker element
(`.goog-te-banner-frame`) is present in the document, schedule
`detectAndApplyLayout` after 500 ms; otherwise schedule nothing. -/
def observeGoogleTranslateCallback (markerPresent : Bool) :
    List ScheduledTask :=
  if markerPresent then [⟨500, SchedAction.reconcile⟩] else []

/-- Tasks scheduled over a sequence of mutation batches, each batch
represented by whether the widget marker was present at delivery time. -/
def widgetWatchRun : List Bool → List ScheduledTask
  | [] => []
  | b :: rest => observeGoogleTranslateCallback b ++ widgetWatchRun rest

/-- Value of `document.readyState` at the moment the script's top level runs. -/
inductive ReadyState where
  | loading : ReadyState
  | interactive : ReadyState
  | complete : ReadyState
  deriving DecidableEq

/-- Host semantics of the `DOMContentLoaded` event, as the source itself
assumes at lines 182-188: a listener registered while the document is still
loading fires once when parsing finishes; a listener registered after that
never fires, because the event has already been dispatched. -/
def domContentLoadedFires : ReadyState → Bool
  | ReadyState.loading => true
  | _ => false

/-- Whether the manual-switch change handler ends up attached to the selector
control after startup (lines 191-208): the `DOMContentLoaded` listener is
registered unconditionally, its callback runs only if the event still fires,
and inside it the handler is attached only if `languageSwitcher` exists. -/
def switcherHandlerAttached (rs : ReadyState) (controlPresent : Bool) : Bool :=
  domContentLoadedFires rs && controlPresent

/-- The change handler of the language switcher (lines 196-204): write the
control's current value to the root element's `lang` attribute. -/
def switcherChangeHandler (value : String) (s : DocState) : DocState :=
  { s with lang := some value }

/-! Helper lemmas about the class-list operations and the hook. -/

lemma mem_classAdd_self (cs : List String) (c : String) : c ∈ classAdd cs c := by
  unfold classAdd
  by_cases h : c ∈ cs <;> simp [h]

lemma classAdd_noop (cs : List String) (c : String) (h : c ∈ cs) :
    classAdd cs c = cs := by
  simp [classAdd, h]

lemma not_mem_classRemove_self (cs : List String) (c : String) :
    c ∉ classRemove cs c := by
  simp [classRemove]

lemma classRemove_noop (cs : List String) (c : String) (h : c ∉ cs) :
    classRemove cs c = cs := by
  rw [classRemove, List.filter_eq_self]
  intro a ha
  simp only [ne_eq, decide_eq_true_eq]
  intro hac
  exact h (hac ▸ ha)

lemma classAdd_idem (cs : List String) (c : String) :
    classAdd (classAdd cs c) c = classAdd cs c :=
  classAdd_noop _ _ (mem_classAdd_self cs c)

lemma classRemove_idem (cs : List String) (c : String) :
    classRemove (classRemove cs c) c = classRemove cs c :=
  classRemove_noop _ _ (not_mem_classRemove_self cs c)

lemma hookOk_threw (hook : Option (Option String → Bool)) (hOk : hookOk hook)
    (s : DocState) : (detectAndApplyLayout hook s).threw = false := by
  cases hook with
  | none => rfl
  | some h =>
    simp only [detectAndApplyLayout]
    exact hOk s.lang

lemma detectAndApplyLayout_state (hook : Option (Option String → Bool))
    (s : DocState) :
    (detectAndApplyLayout hook s).state =
      (if isRTLLanguage s.lang then applyRTL s else applyLTR s) := by
  cases hook <;> by_cases h : isRTLLanguage s.lang = true <;>
    simp [detectAndApplyLayout, h]

/-- C3: the classifier is a pure total function: a null/absent or empty code
is LTR; otherwise the code is lower-cased, the part before the first `-` is
taken, and the verdict is RTL exactly when that primary subtag is one of the
fixed 14 subtags; in particular `"AR"`, `"he-IL"`, `"ar-SA"` classify RTL and
`"en-GB"` classifies LTR. -/
theorem isRTLLanguage_spec :
    (∀ l : String, isRTLLanguage (some l) = true ↔
      (l ≠ "" ∧ baseLangOf l ∈
        ["ar", "arc", "dv", "fa", "ha", "he", "khw", "ks", "ku", "ps", "sd",
         "ur", "uz", "yi"])) ∧
    isRTLLanguage none = false ∧
    isRTLLanguage (some "") = false ∧
    RTL_LANGUAGES.length = 14 ∧
    isRTLLanguage (some "AR") = true ∧
    isRTLLanguage (some "he-IL") = true ∧
    isRTLLanguage (some "ar-SA") = true ∧
    isRTLLanguage (some "en-GB") = false := by
  refine ⟨?_, by decide, by decide, by decide, by decide, by decide,
    by decide, by decide⟩
  intro l
  unfold isRTLLanguage
  by_cases hl : l = ""
  · simp [hl]
  · simp [hl, RTL_LANGUAGES, List.elem_iff]

/-- C6: the appliers are idempotent — running `applyRTL` (resp. `applyLTR`)
twice in a row leaves exactly the state one run leaves — and re-invoking the
applier that matches the current direction/marker state changes nothing. -/
theorem applier_idempotent :
    (∀ s, applyRTL (applyRTL s) = applyRTL s) ∧
    (∀ s, applyLTR (applyLTR s) = applyLTR s) ∧
    (∀ s, s.dir = some "rtl" → "rtl-mode" ∈ s.classes → applyRTL s = s) ∧
    (∀ s, s.dir = some "ltr" → "rtl-mode" ∉ s.classes → applyLTR s = s) := by
  refine ⟨?_, ?_, ?_, ?_⟩
  · intro s
    simp [applyRTL, classAdd_idem]
  · intro s
    simp [applyLTR, classRemove_idem]
  · intro s hdir hmem
    cases s
    simp_all [applyRTL, classAdd_noop]
  · intro s hdir hmem
    cases s
    simp_all [applyLTR, classRemove_noop]

/-- Witness for C6: at a state whose direction is `"rtl"` with the marker
present, `applyRTL` changes nothing. -/
theorem applier_idempotent_witness :
    applyRTL ⟨some "ar", some "rtl", ["rtl-mode"]⟩ =
      ⟨some "ar", some "rtl", ["rtl-mode"]⟩ :=
  applier_idempotent.2.2.1 ⟨some "ar", some "rtl", ["rtl-mode"]⟩ rfl
    (by decide)

/-- C1: one sweep tick restores the invariant for whatever language the
document then has — after the tick the `dir` attribute is `"rtl"` exactly
when the classifier's verdict on the (unchanged) current language is RTL. -/
theorem sweep_restores_invariant (s : DocState) :
    ((sweepTick s).1.dir = some "rtl" ↔
      isRTLLanguage (sweepTick s).1.lang = true) ∧
    (sweepTick s).1.lang = s.lang := by
  unfold sweepTick
  by_cases hr : isRTLLanguage s.lang = true <;>
    by_cases hd : s.dir = some "rtl" <;>
      simp_all [applyRTL, applyLTR]

/-- C10: the sweep compares only the `dir` attribute, never the marker class;
whenever `dir` already matches the verdict the tick is a strict no-op (it
calls no applier and leaves the state — including a mismatched `rtl-mode`
marker — untouched), and so does every iterate of the sweep. -/
theorem sweep_ignores_marker (s : DocState)
    (h : s.dir = some "rtl" ↔ isRTLLanguage s.lang = true) :
    sweepTick s = (s, []) ∧ (∀ n, (fun st => (sweepTick st).1)^[n] s = s) := by
  have hfix : sweepTick s = (s, []) := by
    unfold sweepTick
    by_cases hr : isRTLLanguage s.lang = true
    · have hd : s.dir = some "rtl" := h.mpr hr
      simp [hr, hd]
    · have hd : ¬ s.dir = some "rtl" := fun hh => hr (h.mp hh)
      simp [hr, hd]
  refine ⟨hfix, fun n => Function.iterate_fixed ?_ n⟩
  simp [hfix]

/-- Witness for C10: a state with `dir = "rtl"`, the marker class absent and
an RTL language is left exactly as it is by the sweep. -/
theorem sweep_ignores_marker_witness :
    sweepTick ⟨some "ar", some "rtl", []⟩ = (⟨some "ar", some "rtl", []⟩, []) :=
  (sweep_ignores_marker ⟨some "ar", some "rtl", []⟩ (by decide)).1

/-- C2: `detectAndApplyLayout` reads the current language, classifies it,
calls `applyRTL` on an RTL verdict and `applyLTR` otherwise, and then calls
the translation hook with the current language code exactly when one is
registered; with no hook registered it makes no hook call and completes
without an exception. -/
theorem detectAndApplyLayout_contract (hook : Option (Option String → Bool))
    (s : DocState) :
    ((detectAndApplyLayout hook s).state =
      (if isRTLLanguage s.lang then applyRTL s else applyLTR s)) ∧
    ((detectAndApplyLayout none s).events =
      [if isRTLLanguage s.lang then Ev.ertl else Ev.eltr]) ∧
    ((detectAndApplyLayout none s).threw = false) ∧
    (∀ h, (detectAndApplyLayout (some h) s).events =
      [if isRTLLanguage s.lang then Ev.ertl else Ev.eltr, Ev.ehook s.lang]) := by
  refine ⟨detectAndApplyLayout_state hook s, ?_, rfl, ?_⟩
  · by_cases hr : isRTLLanguage s.lang = true <;>
      simp [detectAndApplyLayout, hr]
  · intro h
    by_cases hr : isRTLLanguage s.lang = true <;>
      simp [detectAndApplyLayout, hr]

/-- C4 counterexample: with a registered hook that throws, the exception does
escape `detectAndApplyLayout` (lines 88-90 have no try/catch), refuting the
claim that it never propagates. -/
theorem hook_throw_escapes :
    (detectAndApplyLayout (some (fun _ => true))
      ⟨some "ar", none, []⟩).threw = true := by
  decide

/-- C4 amended: a throw from the registered hook escapes `detectAndApplyLayout`
exactly when the hook throws on the current language, but the hook runs after
the applier, so the final direction attribute and marker class still match the
classifier's verdict, and equal the state an absent hook would leave. -/
theorem hook_failure_state_correct (h : Option String → Bool) (s : DocState) :
    ((detectAndApplyLayout (some h) s).threw = h s.lang) ∧
    ((detectAndApplyLayout (some h) s).state =
      (detectAndApplyLayout none s).state) ∧
    ((detectAndApplyLayout (some h) s).state.dir =
      some (if isRTLLanguage s.lang then "rtl" else "ltr")) ∧
    ("rtl-mode" ∈ (detectAndApplyLayout (some h) s).state.classes ↔
      isRTLLanguage s.lang = true) := by
  refine ⟨rfl, ?_, ?_, ?_⟩
  · rw [detectAndApplyLayout_state, detectAndApplyLayout_state]
  · rw [detectAndApplyLayout_state]
    by_cases hr : isRTLLanguage s.lang = true <;> simp [hr, applyRTL, applyLTR]
  · rw [detectAndApplyLayout_state]
    by_cases hr : isRTLLanguage s.lang = true <;>
      simp [hr, applyRTL, applyLTR, mem_classAdd_self, not_mem_classRemove_self]

/-- C5: a sweep tick's trace is `[applyRTL]` exactly when the verdict is RTL
and `dir` is not `"rtl"`, `[applyLTR]` exactly when the verdict is LTR and
`dir` is `"rtl"`, and empty exactly when `dir` already agrees with the
verdict; the sweep never calls the translation hook. -/
theorem sweepTick_calls (s : DocState) :
    ((sweepTick s).2 = [Ev.ertl] ↔
      (isRTLLanguage s.lang = true ∧ s.dir ≠ some "rtl")) ∧
    ((sweepTick s).2 = [Ev.eltr] ↔
      (isRTLLanguage s.lang = false ∧ s.dir = some "rtl")) ∧
    ((sweepTick s).2 = [] ↔
      (isRTLLanguage s.lang = true ↔ s.dir = some "rtl")) ∧
    (∀ l, Ev.ehook l ∉ (sweepTick s).2) := by
  unfold sweepTick
  by_cases hr : isRTLLanguage s.lang = true <;>
    by_cases hd : s.dir = some "rtl" <;>
      simp_all

/-- C7: with a non-throwing (or absent) hook, a delivered batch triggers one
`detectAndApplyLayout` call per mutation that is an attribute mutation of
`lang` — no more and no fewer — the final state is the fold of reconcile over
exactly those mutations (so a batch of only unrelated attribute changes
leaves the state untouched and triggers no reconcile), and no exception
escapes the callback. -/
theorem attr_observer_filter (hook : Option (Option String → Bool))
    (hOk : hookOk hook) (ms : List MutationRecord) (s : DocState) :
    ((attrObserverCallback hook ms s).reconcileCalls =
      (ms.filter isLangMutation).length) ∧
    ((attrObserverCallback hook ms s).state =
      (ms.filter isLangMutation).foldl
        (fun st _ => (detectAndApplyLayout hook st).state) s) ∧
    ((attrObserverCallback hook ms s).threw = false) := by
  induction ms generalizing s with
  | nil => exact ⟨rfl, rfl, rfl⟩
  | cons m rest ih =>
    by_cases hm : isLangMutation m = true
    · have ht := hookOk_threw hook hOk s
      have ihr := ih (detectAndApplyLayout hook s).state
      simp [attrObserverCallback, hm, ht, ihr.1, ihr.2.1, ihr.2.2]
    · have ihr := ih s
      simp [attrObserverCallback, hm, ihr.1, ihr.2.1, ihr.2.2]

/-- Witness for C7: with no hook registered, a batch holding only a `class`
attribute mutation triggers zero reconcile calls and leaves the state as it
was. -/
theorem attr_observer_filter_witness :
    (attrObserverCallback none [⟨"attributes", some "class"⟩]
        ⟨some "en", some "ltr", []⟩).reconcileCalls = 0 ∧
    (attrObserverCallback none [⟨"attributes", some "class"⟩]
        ⟨some "en", some "ltr", []⟩).state = ⟨some "en", some "ltr", []⟩ := by
  have h := attr_observer_filter none trivial
    [⟨"attributes", some "class"⟩] ⟨some "en", some "ltr", []⟩
  refine ⟨?_, ?_⟩
  · rw [h.1]; decide
  · rw [h.2.1]; decide

/-- C8 counterexample: when the document has already finished loading at
script startup and the selector control is present, the change handler is
nonetheless never attached — the `DOMContentLoaded` listener registered at
line 191 no longer fires — refuting "attached in every startup case". -/
theorem switcher_not_attached_when_loaded :
    switcherHandlerAttached ReadyState.complete true = false := by
  decide

/-- C8 amended: the change handler is attached exactly when the document was
still loading at startup and the control exists (so never when the control is
absent, and never in the already-loaded startup cases); when it runs, the
handler writes the control's value to the `lang` attribute and changes
neither the `dir` attribute nor the class list. -/
theorem switcher_contract :
    (∀ rs p, switcherHandlerAttached rs p = true ↔
      (rs = ReadyState.loading ∧ p = true)) ∧
    (∀ rs, switcherHandlerAttached rs false = false) ∧
    (∀ v s, (switcherChangeHandler v s).lang = some v ∧
      (switcherChangeHandler v s).dir = s.dir ∧
      (switcherChangeHandler v s).classes = s.classes) := by
  refine ⟨?_, ?_, ?_⟩
  · intro rs p
    cases rs <;> cases p <;> simp [switcherHandlerAttached, domContentLoadedFires]
  · intro rs
    cases rs <;> rfl
  · intro v s
    exact ⟨rfl, rfl, rfl⟩

/-- C9: on each delivered batch the widget watcher schedules exactly one
500 ms deferred reconcile when the widget marker is present and nothing when
it is absent; over any sequence of batches it schedules one such task per
batch with the marker present. -/
theorem widget_watch_schedule :
    (observeGoogleTranslateCallback true = [⟨500, SchedAction.reconcile⟩]) ∧
    (observeGoogleTranslateCallback false = []) ∧
    (∀ batches : List Bool, widgetWatchRun batches =
      List.replicate (batches.count true) ⟨500, SchedAction.reconcile⟩) := by
  refine ⟨rfl, rfl, ?_⟩
  intro batches
  induction batches with
  | nil => rfl
  | cons b rest ih =>
    cases b <;>
      simp [widgetWatchRun, observeGoogleTranslateCallback, ih,
        List.count_cons, List.replicate_succ]
